import Mathlib

/-!
# CubieGameJS v1.0.0 engine core — shallow embedding and verification

This file embeds the frame-driven simulation core of `engine.js` in Lean and
settles the specification claims against it.  The subsystems modelled are the
ones the claims touch: the frame loop (`Cubie.loop` / `Cubie.update`), the
event emitter, the entity registry, `PhysicsSystem`, `ParticleSystem` and
`TweenSystem`.

JavaScript numbers are IEEE-754 binary64 values, and several claims are
sensitive to that (the particle-spawn accumulator crosses its strict `>`
threshold only because of accumulated rounding error; zero rates and zero
durations produce infinities and NaNs rather than exceptions).  Numbers are
therefore embedded exactly: a finite double is a canonical dyadic rational
`m * 2^e`, the special values NaN and ±∞ are explicit constructors, and every
arithmetic operation is exact rational arithmetic followed by round-to-nearest,
ties-to-even — which is precisely the IEEE semantics of `+ - * /`.  Gradual
underflow (subnormals) and negative zero are not modelled; no quantity in any
claim comes near either.  `Math.sqrt` (used once, in `checkCollision`) is kept
as an explicit function parameter.  `Math.random` is modelled as a stream of
values consumed in call order.
-/

/-- A canonical dyadic rational: value `m * 2^e`, with `m` odd, or `m = 0 ∧ e = 0`. -/
structure Dy where
  m : ℤ
  e : ℤ
deriving DecidableEq, Repr

/-- A JavaScript number: NaN, ±∞, or a finite binary64 value. -/
inductive JsNum where
  | nan : JsNum
  | posInf : JsNum
  | negInf : JsNum
  | fin : Dy → JsNum
deriving DecidableEq, Repr

/-- The dyadic zero. -/
def dyZero : Dy := ⟨0, 0⟩

/-- Fuel-based floor of log₂ (valid when the fuel is at least the argument). -/
def ilog2Aux : ℕ → ℕ → ℕ
  | 0, _ => 0
  | f + 1, n => if n < 2 then 0 else ilog2Aux f (n / 2) + 1

/-- Floor of log₂ n for n ≥ 1 (0 for n = 0). -/
def ilog2 (n : ℕ) : ℕ := ilog2Aux n n

/-- Strip trailing factors of two: `oddify fuel m = (m', k)` with `m = m' * 2^k`
and `m'` odd, valid when the fuel is at least log₂ m. -/
def oddify : ℕ → ℕ → ℕ × ℕ
  | 0, m => (m, 0)
  | f + 1, m =>
    if m ≠ 0 ∧ m % 2 = 0 then
      let p := oddify f (m / 2)
      (p.1, p.2 + 1)
    else (m, 0)

/-- Build a finite double from a sign, a magnitude significand `m ∈ [2^52, 2^53]`
and an exponent (value = `± m * 2^e`), canonicalising the dyadic and overflowing
to ±∞ at 2^1024, as IEEE round-to-nearest does. -/
def mkDouble (neg : Bool) (m : ℕ) (e : ℤ) : JsNum :=
  if m = 0 then .fin dyZero
  else if 0 ≤ e ∧ 2 ^ 1024 ≤ m * 2 ^ e.toNat then
    (if neg then .negInf else .posInf)
  else
    let p := oddify m m
    let mm : ℤ := (p.1 : ℤ)
    .fin ⟨if neg then -mm else mm, e + (p.2 : ℤ)⟩

/-- Does `2 ^ e0 ≤ a / b` hold (for a, b ≥ 1)? -/
def pow2LeFrac (e0 : ℤ) (a b : ℕ) : Bool :=
  if 0 ≤ e0 then decide (b * 2 ^ e0.toNat ≤ a) else decide (b ≤ a * 2 ^ (-e0).toNat)

/-- Round the exact rational `n / d` (with `d > 0`) to the nearest binary64
value, ties to even — the rounding IEEE-754 applies after every basic
operation. -/
def roundFrac (n d : ℤ) : JsNum :=
  if n = 0 then .fin dyZero
  else
    let neg := n < 0
    let a := n.natAbs
    let b := d.natAbs
    let e0 : ℤ := (ilog2 a : ℤ) - (ilog2 b : ℤ)
    let e : ℤ := if pow2LeFrac e0 a b then e0 else e0 - 1
    let sh : ℤ := 52 - e
    let num := if 0 ≤ sh then a * 2 ^ sh.toNat else a
    let den := if 0 ≤ sh then b else b * 2 ^ (-sh).toNat
    let q := num / den
    let r := num % den
    let mRounded : ℕ :=
      if 2 * r < den then q
      else if den < 2 * r then q + 1
      else if q % 2 = 0 then q else q + 1
    mkDouble neg mRounded (e - 52)

/-- Round the exact dyadic `M * 2^E` to the nearest binary64 value. -/
def roundAt (M : ℤ) (E : ℤ) : JsNum :=
  if 0 ≤ E then roundFrac (M * 2 ^ E.toNat) 1 else roundFrac M (2 ^ (-E).toNat)

/-- Round `n / d`, allowing a denominator of either sign (`d ≠ 0`). -/
def roundFracS (n d : ℤ) : JsNum :=
  if d < 0 then roundFrac (-n) (-d) else roundFrac n d

/-- The double nearest to `n / d` — how a JavaScript numeric literal parses. -/
def lit (n d : ℤ) : JsNum := roundFracS n d

/-- Exact dyadic comparison `x < y`. -/
def dyLtB (x y : Dy) : Bool :=
  let emin := min x.e y.e
  decide (x.m * 2 ^ (x.e - emin).toNat < y.m * 2 ^ (y.e - emin).toNat)

/-- Exact dyadic comparison `x ≤ y`. -/
def dyLeB (x y : Dy) : Bool :=
  let emin := min x.e y.e
  decide (x.m * 2 ^ (x.e - emin).toNat ≤ y.m * 2 ^ (y.e - emin).toNat)

/-- IEEE addition (JS `+`). -/
def addD : JsNum → JsNum → JsNum
  | .nan, _ => .nan
  | _, .nan => .nan
  | .posInf, .negInf => .nan
  | .negInf, .posInf => .nan
  | .posInf, _ => .posInf
  | _, .posInf => .posInf
  | .negInf, _ => .negInf
  | _, .negInf => .negInf
  | .fin x, .fin y =>
    let emin := min x.e y.e
    roundAt (x.m * 2 ^ (x.e - emin).toNat + y.m * 2 ^ (y.e - emin).toNat) emin

/-- IEEE negation (exact; JS unary `-`). -/
def negD : JsNum → JsNum
  | .nan => .nan
  | .posInf => .negInf
  | .negInf => .posInf
  | .fin x => .fin ⟨-x.m, if x.m = 0 then 0 else x.e⟩

/-- IEEE subtraction (JS `-`). -/
def subD (a b : JsNum) : JsNum := addD a (negD b)

/-- IEEE multiplication (JS `*`); `±∞ * 0 = NaN`. -/
def mulD : JsNum → JsNum → JsNum
  | .nan, _ => .nan
  | _, .nan => .nan
  | .posInf, .posInf => .posInf
  | .posInf, .negInf => .negInf
  | .negInf, .posInf => .negInf
  | .negInf, .negInf => .posInf
  | .posInf, .fin y => if y.m = 0 then .nan else if 0 < y.m then .posInf else .negInf
  | .fin x, .posInf => if x.m = 0 then .nan else if 0 < x.m then .posInf else .negInf
  | .negInf, .fin y => if y.m = 0 then .nan else if 0 < y.m then .negInf else .posInf
  | .fin x, .negInf => if x.m = 0 then .nan else if 0 < x.m then .negInf else .posInf
  | .fin x, .fin y => roundAt (x.m * y.m) (x.e + y.e)

/-- IEEE division (JS `/`); `x / 0 = ±∞` for x ≠ 0, `0 / 0 = NaN`. -/
def divD : JsNum → JsNum → JsNum
  | .nan, _ => .nan
  | _, .nan => .nan
  | .posInf, .posInf => .nan
  | .posInf, .negInf => .nan
  | .negInf, .posInf => .nan
  | .negInf, .negInf => .nan
  | .posInf, .fin y => if 0 ≤ y.m then .posInf else .negInf
  | .negInf, .fin y => if 0 ≤ y.m then .negInf else .posInf
  | .fin _, .posInf => .fin dyZero
  | .fin _, .negInf => .fin dyZero
  | .fin x, .fin y =>
    if y.m = 0 then
      (if x.m = 0 then .nan else if 0 < x.m then .posInf else .negInf)
    else
      let E := x.e - y.e
      if 0 ≤ E then roundFracS (x.m * 2 ^ E.toNat) y.m
      else roundFracS x.m (y.m * 2 ^ (-E).toNat)

/-- JS `<` (false whenever a NaN is involved). -/
def ltD : JsNum → JsNum → Bool
  | .nan, _ => false
  | _, .nan => false
  | .posInf, _ => false
  | .negInf, .negInf => false
  | .negInf, _ => true
  | .fin _, .posInf => true
  | .fin _, .negInf => false
  | .fin x, .fin y => dyLtB x y

/-- JS `>`. -/
def gtD (a b : JsNum) : Bool := ltD b a

/-- JS `<=` (false whenever a NaN is involved). -/
def leD : JsNum → JsNum → Bool
  | .nan, _ => false
  | _, .nan => false
  | _, .posInf => true
  | .posInf, _ => false
  | .negInf, _ => true
  | .fin _, .negInf => false
  | .fin x, .fin y => dyLeB x y

/-- JS `>=`. -/
def geD (a b : JsNum) : Bool := leD b a

/-- JS `Math.min` (NaN-propagating). -/
def minD (a b : JsNum) : JsNum :=
  if a = .nan ∨ b = .nan then .nan else if ltD a b then a else b

/-- A 3-component vector of JS numbers. -/
structure Vec3 where
  x : JsNum
  y : JsNum
  z : JsNum
deriving DecidableEq, Repr

/-! ## EventEmitter (engine.js lines 1626-1657)

The emitter keeps a `Map` from event name to an array of callbacks; `on`
pushes, `off` removes via `indexOf` + `splice(index, 1)`, and `emit` runs
`callbacks.forEach(cb => cb(data))` over the live array.  The claims concern a
single channel, so the model is that channel's callback array.  A callback is
identified by `id` (distinct JS function objects have distinct ids); the
behaviour the claims quantify over — a callback that unsubscribes itself
during its own invocation — is captured by the `selfRemoves` flag.
`emit` follows `Array.prototype.forEach` exactly: the length is read once at
the start, the element at the *current* index `k` is invoked, and an index
beyond the current length is skipped. -/

/-- A subscribed callback: its identity and whether it calls
`off(event, itself)` during its own invocation. -/
structure Cb where
  id : ℕ
  selfRemoves : Bool
deriving DecidableEq, Repr

/-- `EventEmitter.off`: `indexOf` + `splice(index, 1)` — remove the first
occurrence of the callback. -/
def offCb : List Cb → Cb → List Cb
  | [], _ => []
  | x :: xs, c => if x = c then xs else x :: offCb xs c

/-- One `forEach` walk of `emit`: `fuel` is the length captured at the start,
`k` the running index.  At each step the element at the current index `k` is
invoked (recorded in `acc`), mutating the array if it self-unsubscribes; an
index past the current length is skipped, exactly as `forEach` skips deleted
slots. -/
def emitGo : ℕ → ℕ → List Cb → List ℕ → List ℕ × List Cb
  | 0, _, cbs, acc => (acc.reverse, cbs)
  | f + 1, k, cbs, acc =>
    match cbs[k]? with
    | none => emitGo f (k + 1) cbs acc
    | some c =>
      emitGo f (k + 1) (if c.selfRemoves then offCb cbs c else cbs) (c.id :: acc)

/-- `EventEmitter.emit` on one channel: returns the ids invoked, in order, and
the subscription array as it stands after the dispatch. -/
def emitEv (cbs : List Cb) : List ℕ × List Cb :=
  emitGo cbs.length 0 cbs []

/-! ## Frame loop (`Cubie.loop`, lines 200-232, and `Cubie.update`, lines 234-260)

One un-paused frame is modelled as the trace of labelled invocations it
performs.  Hooks are identified by their index in their hook array; named
systems run via `Map.forEach` (insertion order) when `enabled` and an `update`
method exist; entities run via `Map.forEach` when `enabled` (the `Entity`
class always has an `update` method), and `Entity.update` invokes each
attached script that has an `update` method, in attachment order. -/

/-- One observable invocation inside a frame. -/
inductive FrameEv where
  | preUpdateHook (i : ℕ) (dt : JsNum)
  | inputStep (dt : JsNum)
  | physicsStep (dt : JsNum)
  | particlesStep (dt : JsNum)
  | tweensStep (dt : JsNum)
  | systemUpdate (name : String) (dt : JsNum)
  | scriptUpdate (entity : String) (script : ℕ) (dt : JsNum)
  | postUpdateHook (i : ℕ) (dt : JsNum)
  | preRenderHook (i : ℕ)
  | renderStep
  | postRenderHook (i : ℕ)
  | perfStep
deriving DecidableEq, Repr

/-- A named system as the scheduler sees it. -/
structure SystemEntry where
  name : String
  enabled : Bool
  hasUpdate : Bool
deriving DecidableEq, Repr

/-- An entity as the frame loop sees it: its enabled flag and, per attached
script, whether that script defines `update`. -/
structure EntityEntry where
  name : String
  enabled : Bool
  scriptHasUpdate : List Bool
deriving DecidableEq, Repr

/-- The engine state consulted by one frame: the four hook-array lengths, the
named-system table (insertion order) and the entity registry (insertion
order). -/
structure EngineState where
  preUpdateCount : ℕ
  postUpdateCount : ℕ
  preRenderCount : ℕ
  postRenderCount : ℕ
  systems : List SystemEntry
  entities : List EntityEntry

/-- `Entity.update` (lines 695-699): invoke each attached script that has an
`update`, in attachment order, passing `(dt, entity)`. -/
def entityScriptEvents (dt : JsNum) (e : EntityEntry) : List FrameEv :=
  (e.scriptHasUpdate.enum.filter (fun p => p.2)).map (fun p => .scriptUpdate e.name p.1 dt)

/-- `Cubie.update` (lines 234-260): input, physics, particles, tweens, then
enabled named systems with an `update`, then enabled entities. -/
def updateTrace (s : EngineState) (dt : JsNum) : List FrameEv :=
  .inputStep dt :: .physicsStep dt :: .particlesStep dt :: .tweensStep dt ::
    ((s.systems.filter (fun sys => sys.enabled && sys.hasUpdate)).map
        (fun sys => .systemUpdate sys.name dt)
      ++ (s.entities.filter (fun e => e.enabled)).flatMap (entityScriptEvents dt))

/-- The body of `Cubie.loop` for one running, un-paused frame (lines 207-231):
pre-update hooks (each given dt), `update(dt)`, post-update hooks (each given
dt), pre-render hooks, `render()`, post-render hooks, performance monitor. -/
def loopTrace (s : EngineState) (dt : JsNum) : List FrameEv :=
  ((List.range s.preUpdateCount).map (fun i => .preUpdateHook i dt))
    ++ updateTrace s dt
    ++ ((List.range s.postUpdateCount).map (fun i => .postUpdateHook i dt))
    ++ ((List.range s.preRenderCount).map (fun i => .preRenderHook i))
    ++ [.renderStep]
    ++ ((List.range s.postRenderCount).map (fun i => .postRenderHook i))
    ++ [.perfStep]

/-- The step kinds named by the frame-order claim (everything in the frame
except the input poll and the performance monitor, which the claim does not
mention). -/
def claimKind : FrameEv → Bool
  | .inputStep _ => false
  | .perfStep => false
  | _ => true

/-- The invocation order the claim asserts, built from the claim's own words:
pre-update hooks (each receiving dt), physics, particles, tweens, enabled
named systems in insertion order, enabled entities' scripts in registry
iteration order, post-update hooks, pre-render hooks, the render, post-render
hooks. -/
def claimedOrder (s : EngineState) (dt : JsNum) : List FrameEv :=
  ((List.range s.preUpdateCount).map (fun i => .preUpdateHook i dt))
    ++ .physicsStep dt :: .particlesStep dt :: .tweensStep dt ::
      ((s.systems.filter (fun sys => sys.enabled && sys.hasUpdate)).map
          (fun sys => .systemUpdate sys.name dt)
        ++ (s.entities.filter (fun e => e.enabled)).flatMap (entityScriptEvents dt))
    ++ ((List.range s.postUpdateCount).map (fun i => .postUpdateHook i dt))
    ++ ((List.range s.preRenderCount).map (fun i => .preRenderHook i))
    ++ [.renderStep]
    ++ ((List.range s.postRenderCount).map (fun i => .postRenderHook i))

/-! ## Entity registry (`Cubie.entity`, lines 310-361, and `Entity`, lines 597-620)

`create` builds a `new Entity(name, config)` and does `this.entities.set(name,
entity)` — a JS `Map.set`, which *replaces* an existing entry in place (the
key keeps its insertion position) and appends otherwise.  There is no
duplicate check.  The renderer attach (scene/layer) and the `entity:create`
event are external side effects not recorded here.  Scripts, components and
tags all start empty and are not consulted by the registry claims, so the
entity model carries the scalar fields of lines 599-619. -/

/-- JS `config.v || d` for a numeric option: the default is taken when the
option is absent or falsy (0 or NaN). -/
def jsOrNum (v : Option JsNum) (d : JsNum) : JsNum :=
  match v with
  | none => d
  | some x => if x = .nan ∨ x = .fin dyZero then d else x

/-- The fields of the `config` argument of `new Entity` that the constructor
reads (absent field = JS `undefined`). -/
structure EntityCfg where
  hasMesh : Bool := false
  enabled : Option Bool := none
  visible : Option Bool := none
  x : Option JsNum := none
  y : Option JsNum := none
  width : Option JsNum := none
  height : Option JsNum := none
  rotation : Option JsNum := none
  scaleX : Option JsNum := none
  scaleY : Option JsNum := none
  alpha : Option JsNum := none
deriving DecidableEq

/-- An `Entity` as constructed by lines 598-620 (scripts, components and tags
start empty and are omitted). -/
structure EntityM where
  name : String
  hasMesh : Bool
  enabled : Bool
  visible : Bool
  x : JsNum
  y : JsNum
  width : JsNum
  height : JsNum
  rotation : JsNum
  scaleX : JsNum
  scaleY : JsNum
  alpha : JsNum
deriving DecidableEq

/-- The `Entity` constructor: `config.enabled !== undefined ? config.enabled :
true` for the flags, `config.x || 0`-style defaults for the numbers. -/
def mkEntity (name : String) (c : EntityCfg) : EntityM :=
  { name := name
    hasMesh := c.hasMesh
    enabled := c.enabled.getD true
    visible := c.visible.getD true
    x := jsOrNum c.x (lit 0 1)
    y := jsOrNum c.y (lit 0 1)
    width := jsOrNum c.width (lit 0 1)
    height := jsOrNum c.height (lit 0 1)
    rotation := jsOrNum c.rotation (lit 0 1)
    scaleX := jsOrNum c.scaleX (lit 1 1)
    scaleY := jsOrNum c.scaleY (lit 1 1)
    alpha := jsOrNum c.alpha (lit 1 1) }

/-- JS `Map.set`: replace in place if the key exists (keeping its position),
append otherwise. -/
def mapSet : List (String × EntityM) → String → EntityM → List (String × EntityM)
  | [], k, v => [(k, v)]
  | (k', v') :: rest, k, v =>
    if k' = k then (k, v) :: rest else (k', v') :: mapSet rest k v

/-- JS `Map.get`. -/
def mapGet : List (String × EntityM) → String → Option EntityM
  | [], _ => none
  | (k', v') :: rest, k => if k' = k then some v' else mapGet rest k

/-- `Cubie.entity.create` (lines 311-328): construct the entity and
`entities.set(name, entity)`.  Always succeeds; returns the entity and the
updated registry. -/
def entityCreate (reg : List (String × EntityM)) (name : String) (c : EntityCfg) :
    EntityM × List (String × EntityM) :=
  let e := mkEntity name c
  (e, mapSet reg name e)

/-! ## PhysicsSystem (lines 887-1026)

A body references exactly one entity; its `entity.position.get`/`set` pair is
inlined as the `pos` field (one body per entity, the §3 invariant).  The
`update` stages follow the source comments: gravity overwrite + velocity/drag/
position integration, ground collision, bounds collision, acceleration reset —
then the O(n²) `checkCollision` pass.  `Math.sqrt` is a parameter. -/

/-- Axis-aligned bounds as callers declare them.  The engine reads only
`minX`, `maxX`, `minZ` and `maxZ` (lines 958-961); `minY`/`maxY` may be
declared but are never consulted. -/
structure BoundsM where
  minX : JsNum
  maxX : JsNum
  minY : JsNum
  maxY : JsNum
  minZ : JsNum
  maxZ : JsNum
deriving DecidableEq, Repr

/-- A physics body (`addBody`, lines 895-913), with the owning entity's
position inlined. -/
structure Body where
  pos : Vec3
  velocity : Vec3
  acceleration : Vec3
  mass : JsNum
  useGravity : Bool
  isStatic : Bool
  restitution : JsNum
  friction : JsNum
  drag : JsNum
  radius : JsNum
  bounds : Option BoundsM
deriving DecidableEq, Repr

/-- Integration stage (lines 925-945): gravity overwrites the vertical
acceleration when `useGravity`, then velocity += acceleration·dt, drag scales
velocity by (1 − drag), and position += velocity·dt. -/
def integrate (g dt : JsNum) (b : Body) : Body :=
  let acc : Vec3 := if b.useGravity then ⟨b.acceleration.x, g, b.acceleration.z⟩ else b.acceleration
  let v1 : Vec3 :=
    ⟨addD b.velocity.x (mulD acc.x dt),
     addD b.velocity.y (mulD acc.y dt),
     addD b.velocity.z (mulD acc.z dt)⟩
  let dragF := subD (lit 1 1) b.drag
  let v2 : Vec3 := ⟨mulD v1.x dragF, mulD v1.y dragF, mulD v1.z dragF⟩
  let p : Vec3 :=
    ⟨addD b.pos.x (mulD v2.x dt),
     addD b.pos.y (mulD v2.y dt),
     addD b.pos.z (mulD v2.z dt)⟩
  { b with acceleration := acc, velocity := v2, pos := p }

/-- Ground collision stage (lines 947-954): if y < 0, clamp y to 0, reflect
the vertical velocity by −restitution and dampen both horizontal velocities by
(1 − friction). -/
def groundCollide (b : Body) : Body :=
  if ltD b.pos.y (lit 0 1) then
    { b with
      pos := ⟨b.pos.x, lit 0 1, b.pos.z⟩
      velocity :=
        ⟨mulD b.velocity.x (subD (lit 1 1) b.friction),
         mulD (negD b.velocity.y) b.restitution,
         mulD b.velocity.z (subD (lit 1 1) b.friction)⟩ }
  else b

/-- One axis of the bounds stage: the two sequential ifs the source repeats
verbatim for x (lines 958-959) and z (lines 960-961) — clamp the position
against the low then the high bound, multiplying the velocity by −restitution
on each violation. -/
def clampAxis (p v lo hi rest : JsNum) : JsNum × JsNum :=
  let s1 := if ltD p lo then (lo, mulD v (negD rest)) else (p, v)
  if gtD s1.1 hi then (hi, mulD s1.2 (negD rest)) else s1

/-- Bounds collision stage (lines 956-963): clamp x against minX/maxX and z
against minZ/maxZ, multiplying that axis's velocity by −restitution on each
violation.  The y axis is not consulted. -/
def boundsCollide (b : Body) : Body :=
  match b.bounds with
  | none => b
  | some bd =>
    let sx := clampAxis b.pos.x b.velocity.x bd.minX bd.maxX b.restitution
    let sz := clampAxis b.pos.z b.velocity.z bd.minZ bd.maxZ b.restitution
    { b with
      pos := ⟨sx.1, b.pos.y, sz.1⟩
      velocity := ⟨sx.2, b.velocity.y, sz.2⟩ }

/-- Acceleration reset stage (lines 965-968). -/
def resetAccel (b : Body) : Body :=
  { b with acceleration := ⟨lit 0 1, lit 0 1, lit 0 1⟩ }

/-- The per-body part of `PhysicsSystem.update` (lines 922-969): a static body
is skipped entirely; a dynamic body runs the four stages in order. -/
def stepBody (g dt : JsNum) (b : Body) : Body :=
  if b.isStatic then b
  else resetAccel (boundsCollide (groundCollide (integrate g dt b)))

/-- `PhysicsSystem.applyForce` (lines 1017-1021): acceleration += force/mass,
componentwise. -/
def applyForce (b : Body) (f : Vec3) : Body :=
  { b with
    acceleration :=
      ⟨addD b.acceleration.x (divD f.x b.mass),
       addD b.acceleration.y (divD f.y b.mass),
       addD b.acceleration.z (divD f.z b.mass)⟩ }

/-- `PhysicsSystem.checkCollision` (lines 979-1015): distance between the
owning entities' positions; when `distance < rA + rB && distance > 0`, push
each non-static body half the overlap apart along the unit normal and emit a
`collision` event.  Returns the two bodies and whether the event fired. -/
def checkCollision (sqrtFn : JsNum → JsNum) (bodyA bodyB : Body) :
    Body × Body × Bool :=
  let dx := subD bodyB.pos.x bodyA.pos.x
  let dy := subD bodyB.pos.y bodyA.pos.y
  let dz := subD bodyB.pos.z bodyA.pos.z
  let distance := sqrtFn (addD (addD (mulD dx dx) (mulD dy dy)) (mulD dz dz))
  let minDist := addD bodyA.radius bodyB.radius
  if ltD distance minDist && gtD distance (lit 0 1) then
    let nx := divD dx distance
    let ny := divD dy distance
    let nz := divD dz distance
    let overlap := subD minDist distance
    let a' :=
      if bodyA.isStatic then bodyA
      else
        { bodyA with
          pos :=
            ⟨subD bodyA.pos.x (mulD (mulD nx overlap) (lit 5 10)),
             subD bodyA.pos.y (mulD (mulD ny overlap) (lit 5 10)),
             subD bodyA.pos.z (mulD (mulD nz overlap) (lit 5 10))⟩ }
    let b' :=
      if bodyB.isStatic then bodyB
      else
        { bodyB with
          pos :=
            ⟨addD bodyB.pos.x (mulD (mulD nx overlap) (lit 5 10)),
             addD bodyB.pos.y (mulD (mulD ny overlap) (lit 5 10)),
             addD bodyB.pos.z (mulD (mulD nz overlap) (lit 5 10))⟩ }
    (a', b', true)
  else (bodyA, bodyB, false)

/-- One inner/outer pair visit of the O(n²) pass (lines 971-977), updating the
body list in place and counting emitted collision events. -/
def collideAt (sqrtFn : JsNum → JsNum) (st : List Body × ℕ) (i j : ℕ) :
    List Body × ℕ :=
  match st.1.get? i, st.1.get? j with
  | some a, some b =>
    let r := checkCollision sqrtFn a b
    ((st.1.set i r.1).set j r.2.1, st.2 + (if r.2.2 then 1 else 0))
  | _, _ => st

/-- The pairwise collision pass: for i < j over the (fixed-length) body list. -/
def collidePairs (sqrtFn : JsNum → JsNum) (bodies : List Body) : List Body × ℕ :=
  let n := bodies.length
  (List.range n).foldl
    (fun st i => ((List.range n).drop (i + 1)).foldl (fun st2 j => collideAt sqrtFn st2 i j) st)
    (bodies, 0)

/-- `PhysicsSystem.update` (enabled path): step every body, then the pairwise
collision pass.  Returns the bodies and the number of collision events. -/
def physicsUpdate (sqrtFn : JsNum → JsNum) (g dt : JsNum) (bodies : List Body) :
    List Body × ℕ :=
  collidePairs sqrtFn (bodies.map (stepBody g dt))

/-! ## ParticleSystem (lines 1212-1317)

An emitter's visual colour/opacity fields and its THREE.Points handle are
never read by `update` and are omitted; `maxParticles` is kept as a natural
number since it is only ever compared against the pool length.
`Math.random()` is a stream `rand : ℕ → Dy` consumed in call order (three
draws per spawned particle, one per axis). -/

/-- A live particle (transient value type). -/
structure Particle where
  pos : Vec3
  vel : Vec3
  life : JsNum
  maxLife : JsNum
deriving DecidableEq, Repr

/-- An emitter as built by `createEmitter` (lines 1218-1234), restricted to
the fields `update` reads. -/
structure Emitter where
  position : Vec3
  rate : JsNum
  lifetime : JsNum
  velocity : Vec3
  velocityVariance : Vec3
  size : JsNum
  sizeEnd : JsNum
  particles : List Particle
  timer : JsNum
  maxParticles : ℕ
  enabled : Bool

/-- One spawned particle (lines 1265-1274): emitter position, base velocity
plus `(random() - 0.5) * variance * 2` per axis, full lifetime. -/
def spawnParticle (em : Emitter) (rand : ℕ → Dy) (i : ℕ) : Particle :=
  { pos := em.position
    vel :=
      ⟨addD em.velocity.x (mulD (mulD (subD (.fin (rand i)) (lit 5 10)) em.velocityVariance.x) (lit 2 1)),
       addD em.velocity.y (mulD (mulD (subD (.fin (rand (i + 1))) (lit 5 10)) em.velocityVariance.y) (lit 2 1)),
       addD em.velocity.z (mulD (mulD (subD (.fin (rand (i + 2))) (lit 5 10)) em.velocityVariance.z) (lit 2 1))⟩
    life := em.lifetime
    maxLife := em.lifetime }

/-- The spawn loop (lines 1263-1275): while `timer > 1/rate` and the pool is
below `maxParticles`, subtract `1/rate` from the timer and push one particle.
The fuel `maxParticles - length` is exact: every iteration grows the pool by
one and the loop requires `length < maxParticles`, so the loop can never run
longer than the fuel allows. -/
def spawnLoop (em : Emitter) (rand : ℕ → Dy) :
    ℕ → JsNum → List Particle → ℕ → JsNum × List Particle × ℕ
  | 0, timer, ps, i => (timer, ps, i)
  | f + 1, timer, ps, i =>
    if gtD timer (divD (lit 1 1) em.rate) && decide (ps.length < em.maxParticles) then
      spawnLoop em rand f (subD timer (divD (lit 1 1) em.rate))
        (ps ++ [spawnParticle em rand i]) (i + 3)
    else (timer, ps, i)

/-- The decay/integration filter (lines 1282-1297): `life -= dt`; drop the
particle when `life <= 0`, otherwise integrate its position and interpolate
its size into the render buffers. -/
def decayLoop (em : Emitter) (dt : JsNum) :
    List Particle → List Particle × List Vec3 × List JsNum
  | [] => ([], [], [])
  | p :: rest =>
    let life := subD p.life dt
    if leD life (lit 0 1) then decayLoop em dt rest
    else
      let pos : Vec3 :=
        ⟨addD p.pos.x (mulD p.vel.x dt),
         addD p.pos.y (mulD p.vel.y dt),
         addD p.pos.z (mulD p.vel.z dt)⟩
      let t := subD (lit 1 1) (divD life p.maxLife)
      let size := addD em.size (mulD (subD em.sizeEnd em.size) t)
      let r := decayLoop em dt rest
      ({ p with life := life, pos := pos } :: r.1, pos :: r.2.1, size :: r.2.2)

/-- The per-emitter body of `ParticleSystem.update` (lines 1257-1305): skip
when disabled; otherwise accumulate the timer, run the spawn loop, then the
decay filter.  Returns the updated emitter, the position/size buffers handed
to the renderer, and the advanced random-stream index. -/
def emitterUpdate (em : Emitter) (dt : JsNum) (rand : ℕ → Dy) (i : ℕ) :
    Emitter × List Vec3 × List JsNum × ℕ :=
  if em.enabled = false then (em, [], [], i)
  else
    let timer := addD em.timer dt
    let s := spawnLoop em rand (em.maxParticles - em.particles.length) timer em.particles i
    let d := decayLoop em dt s.2.1
    ({ em with timer := s.1, particles := d.1 }, d.2.1, d.2.2, s.2.2)

/-! ## TweenSystem (lines 1320-1387)

A tween's target property bag is modelled as an association list; reading an
absent key is JS `undefined`, whose arithmetic yields NaN.  The update/complete
callbacks are modelled by presence flags and invocation counts. -/

/-- JS property read (`target[key]`): NaN for an absent key, since every
arithmetic use of `undefined` produces NaN. -/
def objGet (o : List (String × JsNum)) (k : String) : JsNum :=
  match o with
  | [] => .nan
  | (k', v) :: rest => if k' = k then v else objGet rest k

/-- JS property write (`target[key] = v`): overwrite in place, append if new. -/
def objSet (o : List (String × JsNum)) (k : String) (v : JsNum) :
    List (String × JsNum) :=
  match o with
  | [] => [(k, v)]
  | (k', v') :: rest => if k' = k then (k, v) :: rest else (k', v') :: objSet rest k v

/-- An active tween (`to`, lines 1326-1347). -/
structure Tween where
  target : List (String × JsNum)
  startValues : List (String × JsNum)
  endValues : List (String × JsNum)
  duration : JsNum
  elapsed : JsNum
  easing : JsNum → JsNum
  hasOnUpdate : Bool
  hasOnComplete : Bool
  delay : JsNum
  active : Bool

/-- `easeLinear` (line 1380). -/
def easeLinear : JsNum → JsNum := fun t => t

/-- `TweenSystem.to`: snapshot the start values from the target at creation
time, elapsed 0, active. -/
def tweenTo (target : List (String × JsNum)) (props : List (String × JsNum))
    (duration : JsNum) (easing : JsNum → JsNum) (delay : JsNum)
    (hasOnUpdate hasOnComplete : Bool) : Tween :=
  { target := target
    startValues := props.map (fun p => (p.1, objGet target p.1))
    endValues := props
    duration := duration
    elapsed := lit 0 1
    easing := easing
    hasOnUpdate := hasOnUpdate
    hasOnComplete := hasOnComplete
    delay := delay
    active := true }

/-- The per-key write loop (lines 1362-1366): for each animated key,
`target[key] = start + (end - start) * easedT`. -/
def applyProps (sv : List (String × JsNum)) (easedT : JsNum) :
    List (String × JsNum) → List (String × JsNum) → List (String × JsNum)
  | [], target => target
  | (k, endv) :: rest, target =>
    applyProps sv easedT rest
      (objSet target k (addD (objGet sv k) (mulD (subD endv (objGet sv k)) easedT)))

/-- One tween's slice of `TweenSystem.update` (lines 1350-1376): inactive
tweens are dropped; a pending delay is decremented and the tween kept;
otherwise elapsed += dt, `t = min(elapsed/duration, 1)`, the eased value is
written to every animated property, and at `t >= 1` the completion callback
fires (counted) and the tween is dropped.  Returns (tween, keep, completions). -/
def stepTween (dt : JsNum) (tw : Tween) : Tween × Bool × ℕ :=
  if tw.active = false then (tw, false, 0)
  else if gtD tw.delay (lit 0 1) then ({ tw with delay := subD tw.delay dt }, true, 0)
  else
    let elapsed := addD tw.elapsed dt
    let t := minD (divD elapsed tw.duration) (lit 1 1)
    let easedT := tw.easing t
    let target := applyProps tw.startValues easedT tw.endValues tw.target
    let tw2 := { tw with elapsed := elapsed, target := target }
    if geD t (lit 1 1) then (tw2, false, if tw.hasOnComplete then 1 else 0)
    else (tw2, true, 0)

/-- `TweenSystem.update`: filter the tween list through `stepTween`, counting
completion-callback invocations. -/
def tweensUpdate (dt : JsNum) : List Tween → List Tween × ℕ
  | [] => ([], 0)
  | tw :: rest =>
    let s := stepTween dt tw
    let r := tweensUpdate dt rest
    (if s.2.1 then s.1 :: r.1 else r.1, s.2.2 + r.2)

/-! ## Concrete scenarios used by the claims -/

/-- The zero vector. -/
def vec0 : Vec3 := ⟨lit 0 1, lit 0 1, lit 0 1⟩

/-- The emitter of claim C3: `createEmitter` defaults (rate 10, lifetime 2,
velocity (0,1,0), variance (0.5,0.5,0.5), size 0.1 → 0, maxParticles 1000),
empty pool, zero accumulator. -/
def c3Emitter : Emitter :=
  { position := vec0
    rate := lit 10 1
    lifetime := lit 2 1
    velocity := ⟨lit 0 1, lit 1 1, lit 0 1⟩
    velocityVariance := ⟨lit 5 10, lit 5 10, lit 5 10⟩
    size := lit 1 10
    sizeEnd := lit 0 1
    particles := []
    timer := lit 0 1
    maxParticles := 1000
    enabled := true }

/-- An emitter whose spawn rate has been set to zero (reachable by mutating
`emitter.rate` after creation; `createEmitter`'s `options.rate || 10` default
makes 0 unreachable through the constructor). -/
def c9Emitter : Emitter := { c3Emitter with rate := lit 0 1 }

/-- The tween of claim C4: x from 0 to 10 over duration 2, linear easing, no
delay, with a completion callback. -/
def c4Tween : Tween :=
  tweenTo [("x", lit 0 1)] [("x", lit 10 1)] (lit 2 1) easeLinear (lit 0 1) false true

/-- A zero-duration tween (claim C9): x from 0 to 10 over duration 0. -/
def c9Tween : Tween :=
  tweenTo [("x", lit 0 1)] [("x", lit 10 1)] (lit 0 1) easeLinear (lit 0 1) false true

/-- The registry of claim C5: one entity already present under "a". -/
def c5Reg : List (String × EntityM) := [("a", mkEntity "a" {})]

/-- A second, distinguishable configuration for the duplicate-name create. -/
def c5Cfg : EntityCfg := { x := some (lit 7 1) }

/-- The body of claim C6: gravity-affected dynamic body at rest, mass 1,
`addBody` defaults for restitution/friction/drag, placed high enough that one
step stays above the ground plane. -/
def c6Body : Body :=
  { pos := ⟨lit 0 1, lit 10 1, lit 0 1⟩
    velocity := vec0
    acceleration := vec0
    mass := lit 1 1
    useGravity := true
    isStatic := false
    restitution := lit 5 10
    friction := lit 5 10
    drag := lit 1 100
    radius := lit 1 1
    bounds := none }

/-- A purely vertical force of magnitude 100 (claim C6). -/
def c6Force : Vec3 := ⟨lit 0 1, lit 100 1, lit 0 1⟩

/-- The y-velocity claim C6 predicts for `c6Body` after `applyForce c6Force`
and one step with dt = 1: the accumulated vertical acceleration (force/mass)
integrated in full, then scaled by the drag factor. -/
def c6ClaimedVy : JsNum :=
  mulD (addD (lit 0 1) (mulD (addD (lit 0 1) (divD (lit 100 1) (lit 1 1))) (lit 1 1)))
    (subD (lit 1 1) (lit 1 100))

/-- The body of claim C7: dynamic, gravity off, no drag, moving straight up at
8/s from y = 2, with declared bounds including a y range [0, 5] (the engine
never reads the declared y range). -/
def c7Body : Body :=
  { pos := ⟨lit 0 1, lit 2 1, lit 0 1⟩
    velocity := ⟨lit 0 1, lit 8 1, lit 0 1⟩
    acceleration := vec0
    mass := lit 1 1
    useGravity := false
    isStatic := false
    restitution := lit 5 10
    friction := lit 5 10
    drag := lit 0 1
    radius := lit 1 1
    bounds := some
      { minX := lit (-100) 1, maxX := lit 100 1
        minY := lit 0 1, maxY := lit 5 1
        minZ := lit (-100) 1, maxZ := lit 100 1 } }

/-- A body used for the coincident-collision witness (claim C8). -/
def c8Body : Body :=
  { pos := vec0
    velocity := vec0
    acceleration := vec0
    mass := lit 1 1
    useGravity := true
    isStatic := false
    restitution := lit 5 10
    friction := lit 5 10
    drag := lit 1 100
    radius := lit 1 1
    bounds := none }


/-- Witness body for the amended bounds claim: dynamic, gravity off, no drag,
moving +x at 1/s inside declared x/z bounds [-7, 7]. -/
def c7WitBounds : BoundsM :=
  { minX := lit (-7) 1, maxX := lit 7 1
    minY := lit 0 1, maxY := lit 5 1
    minZ := lit (-7) 1, maxZ := lit 7 1 }

/-- See `c7WitBounds`. -/
def c7WitBody : Body :=
  { pos := ⟨lit 0 1, lit 2 1, lit 0 1⟩
    velocity := ⟨lit 1 1, lit 0 1, lit 0 1⟩
    acceleration := vec0
    mass := lit 1 1
    useGravity := false
    isStatic := false
    restitution := lit 5 10
    friction := lit 5 10
    drag := lit 0 1
    radius := lit 1 1
    bounds := some c7WitBounds }

/-- The integrated, ground-collided state of `c7WitBody` after one step with
dt = 1 (the input to the bounds stage). -/
def c7WitMid : Body := { c7WitBody with pos := ⟨lit 1 1, lit 2 1, lit 0 1⟩ }

/-- Exact rational value of a dyadic (proof-side denotation; never evaluated
by the kernel). -/
def dyVal (x : Dy) : ℚ := (x.m : ℚ) * (2 : ℚ) ^ x.e

/-! # Helper lemmas -/

set_option maxRecDepth 100000

theorem roundFrac_zero (d : ℤ) : roundFrac 0 d = .fin dyZero := by
  unfold roundFrac
  simp

theorem roundAt_zero (E : ℤ) : roundAt 0 E = .fin dyZero := by
  unfold roundAt
  split <;> simp [roundFrac_zero]

theorem subD_fin_self (d : Dy) : subD (.fin d) (.fin d) = .fin dyZero := by
  by_cases h : d.m = 0
  · unfold subD negD addD
    simp [h, roundAt_zero]
  · unfold subD negD addD
    simp [h, min_self, sub_self, add_neg_cancel, roundAt_zero]

theorem ltD_posInf (x : JsNum) : ltD .posInf x = false := by
  cases x <;> rfl

/-! ## Particle-system lemmas -/

theorem spawnLoop_indep (em : Emitter) (rand rand' : ℕ → Dy) :
    ∀ (fuel : ℕ) (timer : JsNum) (ps ps' : List Particle) (i i' : ℕ),
      ps.map Particle.life = ps'.map Particle.life →
      (spawnLoop em rand fuel timer ps i).1 = (spawnLoop em rand' fuel timer ps' i').1 ∧
      (spawnLoop em rand fuel timer ps i).2.1.map Particle.life
        = (spawnLoop em rand' fuel timer ps' i').2.1.map Particle.life := by
  intro fuel
  induction fuel with
  | zero => exact fun timer ps ps' i i' h => ⟨rfl, h⟩
  | succ f ih =>
    intro timer ps ps' i i' h
    have hlen : ps.length = ps'.length := by
      have h2 := congrArg List.length h
      simpa using h2
    unfold spawnLoop
    rw [hlen]
    by_cases hc : (gtD timer (divD (lit 1 1) em.rate) && decide (ps'.length < em.maxParticles)) = true
    · rw [if_pos hc, if_pos hc]
      exact ih _ _ _ _ _ (by simp [h, spawnParticle])
    · rw [if_neg hc, if_neg hc]
      exact ⟨rfl, h⟩

theorem decayLoop_len_indep (em : Emitter) (dt : JsNum) :
    ∀ (ps ps' : List Particle),
      ps.map Particle.life = ps'.map Particle.life →
      (decayLoop em dt ps).1.length = (decayLoop em dt ps').1.length := by
  intro ps
  induction ps with
  | nil =>
    intro ps' h
    have h2 : ps' = [] := by simpa using h.symm
    rw [h2]
  | cons p rest ih =>
    intro ps' h
    cases ps' with
    | nil => simp at h
    | cons q qs =>
      simp only [List.map_cons, List.cons.injEq] at h
      obtain ⟨hl, hrest⟩ := h
      unfold decayLoop
      rw [hl]
      by_cases hc : leD (subD q.life dt) (lit 0 1) = true
      · rw [if_pos hc, if_pos hc]
        exact ih _ hrest
      · rw [if_neg hc, if_neg hc]
        simp only [List.length_cons]
        rw [ih _ hrest]

theorem emitterUpdate_len_indep (em : Emitter) (dt : JsNum) (rand rand' : ℕ → Dy) (i i' : ℕ) :
    (emitterUpdate em dt rand i).1.particles.length
      = (emitterUpdate em dt rand' i').1.particles.length := by
  unfold emitterUpdate
  by_cases he : em.enabled = false
  · rw [if_pos he, if_pos he]
  · rw [if_neg he, if_neg he]
    exact decayLoop_len_indep em dt _ _
      (spawnLoop_indep em rand rand' _ _ _ _ _ _ rfl).2

theorem spawnLoop_cap (em : Emitter) (rand : ℕ → Dy) :
    ∀ (fuel : ℕ) (timer : JsNum) (ps : List Particle) (i : ℕ),
      ps.length ≤ em.maxParticles →
      (spawnLoop em rand fuel timer ps i).2.1.length ≤ em.maxParticles := by
  intro fuel
  induction fuel with
  | zero => exact fun timer ps i h => h
  | succ f ih =>
    intro timer ps i h
    unfold spawnLoop
    by_cases hc : (gtD timer (divD (lit 1 1) em.rate) && decide (ps.length < em.maxParticles)) = true
    · rw [if_pos hc]
      apply ih
      have hlt : ps.length < em.maxParticles := of_decide_eq_true ((Bool.and_eq_true _ _).mp hc).2
      simp only [List.length_append, List.length_singleton]
      omega
    · rw [if_neg hc]
      exact h

theorem decayLoop_shrink (em : Emitter) (dt : JsNum) :
    ∀ ps : List Particle, (decayLoop em dt ps).1.length ≤ ps.length := by
  intro ps
  induction ps with
  | nil => simp [decayLoop]
  | cons p rest ih =>
    unfold decayLoop
    by_cases hc : leD (subD p.life dt) (lit 0 1) = true
    · rw [if_pos hc]
      exact le_trans ih (Nat.le_succ _)
    · rw [if_neg hc]
      simp only [List.length_cons]
      exact Nat.succ_le_succ ih

theorem spawnLoop_zero_rate (em : Emitter) (rand : ℕ → Dy) (hrate : em.rate = lit 0 1) :
    ∀ (fuel : ℕ) (timer : JsNum) (ps : List Particle) (i : ℕ),
      spawnLoop em rand fuel timer ps i = (timer, ps, i) := by
  intro fuel timer ps i
  cases fuel with
  | zero => rfl
  | succ f =>
    unfold spawnLoop
    rw [hrate]
    rw [show divD (lit 1 1) (lit 0 1) = JsNum.posInf from by decide]
    simp [gtD, ltD_posInf]

/-! ## Registry lemmas -/

theorem mapGet_set_self :
    ∀ (reg : List (String × EntityM)) (k : String) (v : EntityM),
      mapGet (mapSet reg k v) k = some v := by
  intro reg k v
  induction reg with
  | nil => simp [mapSet, mapGet]
  | cons p rest ih =>
    by_cases h : p.1 = k
    · simp [mapSet, mapGet, h]
    · simp [mapSet, mapGet, h, ih]

theorem mapGet_set_other :
    ∀ (reg : List (String × EntityM)) (k : String) (v : EntityM) (k' : String),
      k' ≠ k → mapGet (mapSet reg k v) k' = mapGet reg k' := by
  intro reg k v k' hne
  induction reg with
  | nil => simp [mapSet, mapGet, Ne.symm hne]
  | cons p rest ih =>
    by_cases h : p.1 = k
    · have h2 : ¬(k = k') := fun hk => hne hk.symm
      simp [mapSet, mapGet, h, h2]
    · simp only [mapSet, if_neg h, mapGet]
      by_cases h3 : p.1 = k'
      · simp [h3]
      · simp [h3, ih]

/-! # Claim theorems -/

/-- C3: for an emitter with rate 10, maxParticles 1000, zero accumulator and
no live particles, one particle step with dt = 1.0 spawns exactly 10
particles — whatever values `Math.random` returns.  This holds under the
binary64 semantics the engine actually runs on: the accumulator's strict
`timer > 1/rate` comparison passes ten times only because repeated subtraction
of the double 0.1 leaves a positive residue (≈1.39e-16); under exact real
arithmetic the tenth comparison would fail. -/
theorem c3_large_dt_spawns_exactly_ten (rand : ℕ → Dy) :
    (emitterUpdate c3Emitter (lit 1 1) rand 0).1.particles.length = 10 :=
  (emitterUpdate_len_indep c3Emitter (lit 1 1) rand (fun _ => dyZero) 0 0).trans (by decide)

/-- C4: a tween of x from 0 to 10 over duration 2 with linear easing and no
delay reaches x = 5 when the step has accumulated elapsed = 1; when elapsed
reaches 2 the completion callback fires exactly once and the tween is removed,
so later steps neither invoke it again nor write the target. -/
theorem c4_tween_midpoint_and_single_completion :
    ((tweensUpdate (lit 1 1) [c4Tween]).1.map (fun tw => objGet tw.target "x")) = [lit 5 1]
    ∧ ((tweensUpdate (lit 1 1) [c4Tween]).1.map Tween.elapsed) = [lit 1 1]
    ∧ (tweensUpdate (lit 1 1) [c4Tween]).2 = 0
    ∧ (tweensUpdate (lit 1 1) (tweensUpdate (lit 1 1) [c4Tween]).1).2 = 1
    ∧ (tweensUpdate (lit 1 1) (tweensUpdate (lit 1 1) [c4Tween]).1).1.length = 0
    ∧ (tweensUpdate (lit 1 1)
        (tweensUpdate (lit 1 1) (tweensUpdate (lit 1 1) [c4Tween]).1).1).1.length = 0
    ∧ (tweensUpdate (lit 1 1)
        (tweensUpdate (lit 1 1) (tweensUpdate (lit 1 1) [c4Tween]).1).1).2 = 0 := by
  decide

/-- C9 counterexample: the tween step has no explicit guard for a
zero-duration tween.  Stepping the zero-duration tween with dt = 0 computes
`t = min(0/0, 1) = NaN` — an unguarded division whose result drives the
update — and writes NaN into the target's animated property, without
completing or removing the tween. -/
theorem c9_zero_duration_nan_write :
    ((tweensUpdate (lit 0 1) [c9Tween]).1.map (fun tw => objGet tw.target "x")) = [JsNum.nan]
    ∧ (tweensUpdate (lit 0 1) [c9Tween]).1.length = 1
    ∧ (tweensUpdate (lit 0 1) [c9Tween]).2 = 0 := by
  decide

/-- C9 amended: stepping a zero-rate emitter or a zero-duration tween throws
nothing and is total, but not because of explicit guards — the divisions are
performed and their IEEE results drive the update.  A zero-rate emitter spawns
no particles because the spawn threshold `1/0` is +∞ and `timer > +∞` never
holds; a zero-duration tween stepped with positive dt completes immediately
because `t = min(+∞, 1) = 1`; and (per the counterexample) a zero-duration
tween stepped with dt = 0 writes NaN into its target. -/
theorem c9_zero_rate_zero_duration_behavior :
    (∀ (em : Emitter) (dt : JsNum) (rand : ℕ → Dy) (i : ℕ), em.rate = lit 0 1 →
      (emitterUpdate em dt rand i).1.particles.length ≤ em.particles.length)
    ∧ (tweensUpdate (lit 1 1) [c9Tween]).1.length = 0
    ∧ (tweensUpdate (lit 1 1) [c9Tween]).2 = 1 := by
  refine ⟨?_, by decide, by decide⟩
  intro em dt rand i hrate
  unfold emitterUpdate
  by_cases he : em.enabled = false
  · rw [if_pos he]
  · rw [if_neg he]
    simp only [spawnLoop_zero_rate em rand hrate]
    exact decayLoop_shrink em dt _

/-- Witness for C9: the zero-rate emitter hypothesis discharged on a concrete
emitter. -/
theorem c9_zero_rate_zero_duration_behavior_witness :
    c9Emitter.rate = lit 0 1
    ∧ (emitterUpdate c9Emitter (lit 1 1) (fun _ => dyZero) 0).1.particles.length
        ≤ c9Emitter.particles.length :=
  ⟨by decide,
   c9_zero_rate_zero_duration_behavior.1 c9Emitter (lit 1 1) (fun _ => dyZero) 0 (by decide)⟩

/-- C10: an emitter whose live pool is within its cap before a step is still
within the cap after it, for any dt ≥ 0 and any random stream: the spawn loop
re-checks `length < maxParticles` before every push, and the decay filter only
removes. -/
theorem c10_pool_cap_invariant (em : Emitter) (dt : JsNum) (rand : ℕ → Dy) (i : ℕ)
    (hlen : em.particles.length ≤ em.maxParticles) (_hdt : geD dt (lit 0 1) = true) :
    (emitterUpdate em dt rand i).1.particles.length ≤ em.maxParticles := by
  unfold emitterUpdate
  by_cases he : em.enabled = false
  · rw [if_pos he]
    exact hlen
  · rw [if_neg he]
    exact le_trans (decayLoop_shrink em dt _) (spawnLoop_cap em rand _ _ _ _ hlen)

/-- Witness for C10 at a concrete emitter and dt. -/
theorem c10_pool_cap_invariant_witness :
    c3Emitter.particles.length ≤ c3Emitter.maxParticles
    ∧ geD (lit 1 1) (lit 0 1) = true
    ∧ (emitterUpdate c3Emitter (lit 1 1) (fun _ => dyZero) 0).1.particles.length
        ≤ c3Emitter.maxParticles :=
  ⟨by decide, by decide,
   c10_pool_cap_invariant c3Emitter (lit 1 1) (fun _ => dyZero) 0 (by decide) (by decide)⟩

/-- C5 counterexample: `create` performs no duplicate check.  Creating "a"
when "a" is already registered does not fail — it replaces the existing entry
with the freshly constructed entity, so the registry is changed, not left
unchanged. -/
theorem c5_duplicate_create_overwrites :
    (entityCreate c5Reg "a" c5Cfg).2 ≠ c5Reg
    ∧ mapGet (entityCreate c5Reg "a" c5Cfg).2 "a" = some (mkEntity "a" c5Cfg)
    ∧ mkEntity "a" c5Cfg ≠ mkEntity "a" {} := by
  refine ⟨by decide, by decide, by decide⟩

/-- C5 amended: `create` never fails.  For every registry and name it installs
the newly constructed entity under that name — replacing the existing entry in
place when the name is already present — and leaves every other name's entry
unchanged. -/
theorem c5_create_upsert (reg : List (String × EntityM)) (name : String) (cfg : EntityCfg) :
    mapGet (entityCreate reg name cfg).2 name = some (mkEntity name cfg)
    ∧ ∀ k : String, k ≠ name → mapGet (entityCreate reg name cfg).2 k = mapGet reg k := by
  refine ⟨mapGet_set_self reg name (mkEntity name cfg), ?_⟩
  intro k hk
  exact mapGet_set_other reg name (mkEntity name cfg) k hk

/-- Witness for C5 on the concrete duplicate registry, with the unaffected-key
hypothesis discharged at "b". -/
theorem c5_create_upsert_witness :
    mapGet (entityCreate c5Reg "a" c5Cfg).2 "a" = some (mkEntity "a" c5Cfg)
    ∧ ("b" : String) ≠ "a"
    ∧ mapGet (entityCreate c5Reg "a" c5Cfg).2 "b" = mapGet c5Reg "b" :=
  ⟨(c5_create_upsert c5Reg "a" c5Cfg).1, by decide,
   (c5_create_upsert c5Reg "a" c5Cfg).2 "b" (by decide)⟩

/-- C6 counterexample: with a gravity-affected body of mass 1, applying a
purely vertical force of +100 and stepping with dt = 1 leaves a *negative*
vertical velocity — the gravity overwrite (line 927) discards the accumulated
vertical acceleration — whereas the claim's "applied in full" semantics
(`c6ClaimedVy`) would give a positive one. -/
theorem c6_vertical_force_lost :
    ltD (stepBody (negD (lit 98 10)) (lit 1 1) (applyForce c6Body c6Force)).velocity.y
        (lit 0 1) = true
    ∧ gtD c6ClaimedVy (lit 0 1) = true
    ∧ (stepBody (negD (lit 98 10)) (lit 1 1) (applyForce c6Body c6Force)).velocity.y
        ≠ c6ClaimedVy := by
  decide

/-- C6 amended: `applyForce` adds force/mass to the acceleration
componentwise, and the accumulated acceleration is applied in full at the next
step and then reset to zero — *except* that for a gravity-affected dynamic
body the vertical component is overwritten by the gravity constant before
integration, so vertical forces on gravity-affected bodies are discarded (the
step result does not depend on the accumulated vertical acceleration at
all). -/
theorem c6_force_and_gravity_overwrite (b : Body) (f : Vec3) (g dt : JsNum) :
    applyForce b f
      = { b with acceleration :=
            ⟨addD b.acceleration.x (divD f.x b.mass),
             addD b.acceleration.y (divD f.y b.mass),
             addD b.acceleration.z (divD f.z b.mass)⟩ }
    ∧ (b.isStatic = false → b.useGravity = true → ∀ ay ay' : JsNum,
        stepBody g dt { b with acceleration := ⟨b.acceleration.x, ay, b.acceleration.z⟩ }
          = stepBody g dt { b with acceleration := ⟨b.acceleration.x, ay', b.acceleration.z⟩ })
    ∧ (b.isStatic = false → (stepBody g dt b).acceleration = vec0) := by
  refine ⟨rfl, ?_, ?_⟩
  · intro hs hg ay ay'
    simp [stepBody, hs, integrate, hg]
  · intro hs
    simp [stepBody, hs, resetAccel, vec0]

/-- Witness for C6 on the concrete body: the step result is identical for two
different accumulated vertical accelerations, and the acceleration is reset. -/
theorem c6_force_and_gravity_overwrite_witness :
    stepBody (negD (lit 98 10)) (lit 1 1)
        { c6Body with acceleration := ⟨c6Body.acceleration.x, lit 7 1, c6Body.acceleration.z⟩ }
      = stepBody (negD (lit 98 10)) (lit 1 1)
        { c6Body with acceleration := ⟨c6Body.acceleration.x, lit 3 1, c6Body.acceleration.z⟩ }
    ∧ (stepBody (negD (lit 98 10)) (lit 1 1) c6Body).acceleration = vec0 :=
  ⟨(c6_force_and_gravity_overwrite c6Body c6Force (negD (lit 98 10)) (lit 1 1)).2.1
      (by decide) (by decide) (lit 7 1) (lit 3 1),
   (c6_force_and_gravity_overwrite c6Body c6Force (negD (lit 98 10)) (lit 1 1)).2.2 (by decide)⟩

/-- C8: a pair of bodies whose owning entities' positions coincide is skipped
by `checkCollision` — `distance > 0` fails, so no normal is computed (no
division by the zero distance), no position is written, and no collision event
is emitted.  This holds for any square-root implementation that maps 0 to 0. -/
theorem c8_coincident_pair_skipped (sqrtFn : JsNum → JsNum) (a b : Body)
    (px py pz : Dy)
    (hax : a.pos.x = .fin px) (hay : a.pos.y = .fin py) (haz : a.pos.z = .fin pz)
    (hpos : b.pos = a.pos)
    (hs : sqrtFn (.fin dyZero) = .fin dyZero) :
    checkCollision sqrtFn a b = (a, b, false) := by
  simp only [checkCollision, hpos, hax, hay, haz, subD_fin_self]
  rw [show mulD (JsNum.fin dyZero) (JsNum.fin dyZero) = .fin dyZero from by decide]
  rw [show addD (JsNum.fin dyZero) (JsNum.fin dyZero) = .fin dyZero from by decide]
  rw [show addD (JsNum.fin dyZero) (JsNum.fin dyZero) = .fin dyZero from by decide]
  rw [hs]
  rw [show gtD (JsNum.fin dyZero) (lit 0 1) = false from by decide]
  simp

/-- Witness for C8: two coincident concrete bodies under the identity in place
of `Math.sqrt` (which fixes 0). -/
theorem c8_coincident_pair_skipped_witness :
    c8Body.pos.x = .fin dyZero
    ∧ (fun v => v) (JsNum.fin dyZero) = JsNum.fin dyZero
    ∧ checkCollision (fun v => v) c8Body c8Body = (c8Body, c8Body, false) :=
  ⟨by decide, rfl,
   c8_coincident_pair_skipped (fun v => v) c8Body c8Body dyZero dyZero dyZero
     (by decide) (by decide) (by decide) rfl rfl⟩

theorem offCb_append_not_mem (P : List Cb) (c : Cb) (B : List Cb) (hP : c ∉ P) :
    offCb (P ++ c :: B) c = P ++ B := by
  induction P with
  | nil => simp [offCb]
  | cons p ps ih =>
    rw [List.mem_cons] at hP
    push_neg at hP
    have hp : ¬(p = c) := fun h => hP.1 h.symm
    simp only [List.cons_append, offCb, if_neg hp, List.append_eq]
    rw [ih hP.2]

theorem emitGo_no_self (cbs : List Cb) (h : ∀ x ∈ cbs, x.selfRemoves = false) :
    ∀ (f k : ℕ) (acc : List ℕ),
      emitGo f k cbs acc = (acc.reverse ++ ((cbs.drop k).take f).map Cb.id, cbs) := by
  intro f
  induction f with
  | zero => intro k acc; simp [emitGo]
  | succ n ih =>
    intro k acc
    unfold emitGo
    cases hk : cbs[k]? with
    | none =>
      have hlen : cbs.length ≤ k := by
        by_contra hcon
        push_neg at hcon
        rw [List.getElem?_eq_getElem hcon] at hk
        exact Option.noConfusion hk
      have hd : cbs.drop k = [] := List.drop_eq_nil_of_le hlen
      have hd1 : cbs.drop (k + 1) = [] :=
        List.drop_eq_nil_of_le (le_trans hlen (Nat.le_succ _))
      rw [ih (k + 1) acc]
      simp [hd, hd1]
    | some c =>
      have hcmem : c ∈ cbs := by
        obtain ⟨hlt, hget⟩ := List.getElem?_eq_some.mp hk
        exact hget ▸ List.getElem_mem hlt
      have hc : c.selfRemoves = false := h c hcmem
      simp only [hc, Bool.false_eq_true, if_false]
      rw [ih (k + 1) (c.id :: acc)]
      obtain ⟨hlt, hget⟩ := List.getElem?_eq_some.mp hk
      have hdrop : cbs.drop k = c :: cbs.drop (k + 1) := by
        rw [List.drop_eq_getElem_cons hlt, hget]
      rw [hdrop]
      simp [List.take_succ_cons]

theorem emitGo_skip :
    ∀ (A P B : List Cb) (c : Cb) (acc : List ℕ),
      (∀ x ∈ P, x.selfRemoves = false) →
      (∀ x ∈ A, x.selfRemoves = false) →
      c.selfRemoves = true →
      (∀ x ∈ B, x.selfRemoves = false) →
      emitGo (A.length + 1 + B.length) P.length (P ++ A ++ c :: B) acc
        = (acc.reverse ++ (A.map Cb.id ++ c.id :: (B.drop 1).map Cb.id), P ++ A ++ B) := by
  intro A
  induction A with
  | nil =>
    intro P B c acc hP hA hc hB
    rw [show ([] : List Cb).length + 1 + B.length = B.length + 1 from by simp [Nat.add_comm]]
    rw [show P ++ ([] : List Cb) ++ c :: B = P ++ c :: B from by simp]
    unfold emitGo
    have hget : (P ++ c :: B)[P.length]? = some c := by
      rw [List.getElem?_append_right (le_refl _)]
      simp
    simp only [hget, hc, if_true]
    have hcP : c ∉ P := fun hm => by
      rw [hP c hm] at hc
      exact Bool.noConfusion hc
    rw [offCb_append_not_mem P c B hcP]
    rw [emitGo_no_self (P ++ B)
      (by
        intro x hx
        rcases List.mem_append.mp hx with h1 | h2
        · exact hP x h1
        · exact hB x h2) B.length (P.length + 1) (c.id :: acc)]
    have hd : (P ++ B).drop (P.length + 1) = B.drop 1 := by
      rw [show P.length + 1 = P.length + 1 from rfl]
      simp [List.drop_append]
    rw [hd]
    have ht : (B.drop 1).take B.length = B.drop 1 :=
      List.take_of_length_le (by simp)
    rw [ht]
    simp
  | cons a A' ih =>
    intro P B c acc hP hA hc hB
    rw [show (a :: A').length + 1 + B.length = (A'.length + 1 + B.length) + 1 from by
      simp [List.length_cons]
      omega]
    unfold emitGo
    have hget : (P ++ (a :: A') ++ c :: B)[P.length]? = some a := by
      rw [List.append_assoc]
      rw [List.getElem?_append_right (le_refl _)]
      simp
    have ha : a.selfRemoves = false := hA a (List.mem_cons_self a A')
    simp only [hget, ha, Bool.false_eq_true, if_false]
    have hre : P ++ (a :: A') ++ c :: B = (P ++ [a]) ++ A' ++ c :: B := by simp
    have hlen : P.length + 1 = (P ++ [a]).length := by simp
    rw [hre, hlen]
    rw [ih (P ++ [a]) B c (a.id :: acc)
      (by
        intro x hx
        rcases List.mem_append.mp hx with h1 | h2
        · exact hP x h1
        · rw [List.mem_singleton.mp h2]
          exact ha)
      (fun x hx => hA x (List.mem_cons_of_mem a hx)) hc hB]
    simp

theorem c2_self_unsubscribe_skips_next :
    (1 : ℕ) ∉ (emitEv [⟨0, true⟩, ⟨1, false⟩]).1
    ∧ (emitEv [⟨0, true⟩, ⟨1, false⟩]).1 = [0]
    ∧ (emitEv [⟨0, true⟩, ⟨1, false⟩]).2 = [⟨1, false⟩] := by
  decide

theorem c2_self_unsubscribe_dispatch (A : List Cb) (c : Cb) (B : List Cb)
    (hA : ∀ x ∈ A, x.selfRemoves = false) (hc : c.selfRemoves = true)
    (hB : ∀ x ∈ B, x.selfRemoves = false)
    (hid : ((A ++ c :: B).map Cb.id).Nodup) :
    emitEv (A ++ c :: B) = (A.map Cb.id ++ c.id :: (B.drop 1).map Cb.id, A ++ B)
    ∧ (emitEv (A ++ B)).1 = (A ++ B).map Cb.id
    ∧ c.id ∉ (emitEv (A ++ B)).1 := by
  have hAB : ∀ x ∈ A ++ B, x.selfRemoves = false := by
    intro x hx
    rcases List.mem_append.mp hx with h1 | h2
    · exact hA x h1
    · exact hB x h2
  have h2 : (emitEv (A ++ B)).1 = (A ++ B).map Cb.id := by
    unfold emitEv
    rw [emitGo_no_self (A ++ B) hAB]
    simp [List.take_of_length_le]
  have h1 : emitEv (A ++ c :: B)
      = (A.map Cb.id ++ c.id :: (B.drop 1).map Cb.id, A ++ B) := by
    unfold emitEv
    rw [show (A ++ c :: B).length = A.length + 1 + B.length from by simp; omega]
    have hskip := emitGo_skip A [] B c []
      (by intro x hx; exact absurd hx (List.not_mem_nil x)) hA hc hB
    simpa using hskip
  refine ⟨h1, h2, ?_⟩
  rw [h2]
  have hmid : (A.map Cb.id ++ c.id :: B.map Cb.id).Nodup := by
    simpa using hid
  have hnm := List.nodup_middle.mp hmid
  have hout := (List.nodup_cons.mp hnm).1
  simpa using hout

theorem c2_self_unsubscribe_dispatch_witness :
    emitEv ([⟨2, false⟩] ++ (⟨0, true⟩ : Cb) :: [⟨1, false⟩, ⟨3, false⟩])
      = ([2, 0, 3], [⟨2, false⟩, ⟨1, false⟩, ⟨3, false⟩])
    ∧ (emitEv ([⟨2, false⟩] ++ [⟨1, false⟩, ⟨3, false⟩])).1 = [2, 1, 3]
    ∧ (0 : ℕ) ∉ (emitEv ([⟨2, false⟩] ++ [⟨1, false⟩, ⟨3, false⟩])).1 := by
  have h := c2_self_unsubscribe_dispatch [⟨2, false⟩] ⟨0, true⟩ [⟨1, false⟩, ⟨3, false⟩]
    (by decide) (by decide) (by decide) (by decide)
  exact ⟨h.1, h.2.1, h.2.2⟩

theorem c1_frame_invocation_order (s : EngineState) (dt : JsNum) :
    (loopTrace s dt).filter claimKind = claimedOrder s dt := by
  have hpre : ((List.range s.preUpdateCount).map (fun i => FrameEv.preUpdateHook i dt)).filter claimKind
      = (List.range s.preUpdateCount).map (fun i => FrameEv.preUpdateHook i dt) :=
    List.filter_eq_self.mpr (by
      intro a ha
      obtain ⟨i, -, rfl⟩ := List.mem_map.mp ha
      rfl)
  have hpost : ((List.range s.postUpdateCount).map (fun i => FrameEv.postUpdateHook i dt)).filter claimKind
      = (List.range s.postUpdateCount).map (fun i => FrameEv.postUpdateHook i dt) :=
    List.filter_eq_self.mpr (by
      intro a ha
      obtain ⟨i, -, rfl⟩ := List.mem_map.mp ha
      rfl)
  have hprer : ((List.range s.preRenderCount).map (fun i => FrameEv.preRenderHook i)).filter claimKind
      = (List.range s.preRenderCount).map (fun i => FrameEv.preRenderHook i) :=
    List.filter_eq_self.mpr (by
      intro a ha
      obtain ⟨i, -, rfl⟩ := List.mem_map.mp ha
      rfl)
  have hpostr : ((List.range s.postRenderCount).map (fun i => FrameEv.postRenderHook i)).filter claimKind
      = (List.range s.postRenderCount).map (fun i => FrameEv.postRenderHook i) :=
    List.filter_eq_self.mpr (by
      intro a ha
      obtain ⟨i, -, rfl⟩ := List.mem_map.mp ha
      rfl)
  have hsys : ((s.systems.filter (fun sys => sys.enabled && sys.hasUpdate)).map
        (fun sys => FrameEv.systemUpdate sys.name dt)).filter claimKind
      = (s.systems.filter (fun sys => sys.enabled && sys.hasUpdate)).map
        (fun sys => FrameEv.systemUpdate sys.name dt) :=
    List.filter_eq_self.mpr (by
      intro a ha
      obtain ⟨sys, -, rfl⟩ := List.mem_map.mp ha
      rfl)
  have hent : (((s.entities.filter (fun e => e.enabled)).flatMap (entityScriptEvents dt)).filter claimKind)
      = (s.entities.filter (fun e => e.enabled)).flatMap (entityScriptEvents dt) :=
    List.filter_eq_self.mpr (by
      intro a ha
      obtain ⟨e, -, hmem⟩ := List.mem_flatMap.mp ha
      unfold entityScriptEvents at hmem
      obtain ⟨p, -, rfl⟩ := List.mem_map.mp hmem
      rfl)
  unfold loopTrace updateTrace claimedOrder
  simp only [List.filter_append, List.filter_cons, hpre, hpost, hprer, hpostr, hsys, hent]
  simp [claimKind, List.append_assoc]

theorem dyLtB_iff (x y : Dy) : dyLtB x y = true ↔ dyVal x < dyVal y := by
  unfold dyLtB dyVal
  simp only [decide_eq_true_eq]
  have hxe : (0:ℤ) ≤ x.e - min x.e y.e := sub_nonneg.mpr (min_le_left _ _)
  have hye : (0:ℤ) ≤ y.e - min x.e y.e := sub_nonneg.mpr (min_le_right _ _)
  have key : ∀ (a ea : ℤ), 0 ≤ ea - min x.e y.e →
      ((a * 2 ^ (ea - min x.e y.e).toNat : ℤ) : ℚ)
        = (a : ℚ) * (2:ℚ) ^ ea * (2:ℚ) ^ (-(min x.e y.e)) := by
    intro a ea h
    push_cast
    rw [← zpow_natCast (2:ℚ) (ea - min x.e y.e).toNat, Int.toNat_of_nonneg h,
      sub_eq_add_neg, zpow_add₀ (two_ne_zero)]
    ring
  constructor
  · intro h
    have hq : ((x.m * 2 ^ (x.e - min x.e y.e).toNat : ℤ) : ℚ)
        < ((y.m * 2 ^ (y.e - min x.e y.e).toNat : ℤ) : ℚ) := by exact_mod_cast h
    rw [key x.m x.e hxe, key y.m y.e hye] at hq
    exact (mul_lt_mul_right (zpow_pos (by norm_num) _)).mp hq
  · intro h
    have hq : ((x.m:ℚ) * (2:ℚ) ^ x.e) * (2:ℚ) ^ (-(min x.e y.e))
        < ((y.m:ℚ) * (2:ℚ) ^ y.e) * (2:ℚ) ^ (-(min x.e y.e)) :=
      (mul_lt_mul_right (zpow_pos (by norm_num) _)).mpr h
    rw [← key x.m x.e hxe, ← key y.m y.e hye] at hq
    exact_mod_cast hq

theorem dyLeB_iff (x y : Dy) : dyLeB x y = true ↔ dyVal x ≤ dyVal y := by
  unfold dyLeB dyVal
  simp only [decide_eq_true_eq]
  have hxe : (0:ℤ) ≤ x.e - min x.e y.e := sub_nonneg.mpr (min_le_left _ _)
  have hye : (0:ℤ) ≤ y.e - min x.e y.e := sub_nonneg.mpr (min_le_right _ _)
  have key : ∀ (a ea : ℤ), 0 ≤ ea - min x.e y.e →
      ((a * 2 ^ (ea - min x.e y.e).toNat : ℤ) : ℚ)
        = (a : ℚ) * (2:ℚ) ^ ea * (2:ℚ) ^ (-(min x.e y.e)) := by
    intro a ea h
    push_cast
    rw [← zpow_natCast (2:ℚ) (ea - min x.e y.e).toNat, Int.toNat_of_nonneg h,
      sub_eq_add_neg, zpow_add₀ (two_ne_zero)]
    ring
  constructor
  · intro h
    have hq : ((x.m * 2 ^ (x.e - min x.e y.e).toNat : ℤ) : ℚ)
        ≤ ((y.m * 2 ^ (y.e - min x.e y.e).toNat : ℤ) : ℚ) := by exact_mod_cast h
    rw [key x.m x.e hxe, key y.m y.e hye] at hq
    exact (mul_le_mul_right (zpow_pos (by norm_num) _)).mp hq
  · intro h
    have hq : ((x.m:ℚ) * (2:ℚ) ^ x.e) * (2:ℚ) ^ (-(min x.e y.e))
        ≤ ((y.m:ℚ) * (2:ℚ) ^ y.e) * (2:ℚ) ^ (-(min x.e y.e)) :=
      (mul_le_mul_right (zpow_pos (by norm_num) _)).mpr h
    rw [← key x.m x.e hxe, ← key y.m y.e hye] at hq
    exact_mod_cast hq

theorem clampAxis_spec (v rest : JsNum) (pd ld hd : Dy) (hr : dyVal ld ≤ dyVal hd) :
    (∃ q : Dy, (clampAxis (.fin pd) v (.fin ld) (.fin hd) rest).1 = .fin q
        ∧ dyVal ld ≤ dyVal q ∧ dyVal q ≤ dyVal hd)
    ∧ (dyVal pd < dyVal ld →
        clampAxis (.fin pd) v (.fin ld) (.fin hd) rest = (.fin ld, mulD v (negD rest)))
    ∧ (dyVal hd < dyVal pd →
        clampAxis (.fin pd) v (.fin ld) (.fin hd) rest = (.fin hd, mulD v (negD rest)))
    ∧ (dyVal ld ≤ dyVal pd → dyVal pd ≤ dyVal hd →
        clampAxis (.fin pd) v (.fin ld) (.fin hd) rest = (.fin pd, v)) := by
  unfold clampAxis
  simp only [ltD, gtD]
  by_cases h1 : dyVal pd < dyVal ld
  · have hb1 : dyLtB pd ld = true := (dyLtB_iff pd ld).mpr h1
    have hb2 : dyLtB hd ld = false :=
      Bool.eq_false_iff.mpr (fun hb => absurd ((dyLtB_iff hd ld).mp hb) (not_lt.mpr hr))
    simp only [hb1, if_true, hb2, Bool.false_eq_true, if_false]
    refine ⟨⟨ld, rfl, le_refl _, hr⟩, fun _ => trivial, ?_, ?_⟩
    · intro h2
      exact absurd (lt_trans h2 h1) (not_lt.mpr hr)
    · intro h2 _
      exact absurd h1 (not_lt.mpr h2)
  · have hb1 : dyLtB pd ld = false :=
      Bool.eq_false_iff.mpr (fun hb => absurd ((dyLtB_iff pd ld).mp hb) h1)
    by_cases h2 : dyVal hd < dyVal pd
    · have hb2 : dyLtB hd pd = true := (dyLtB_iff hd pd).mpr h2
      simp only [hb1, Bool.false_eq_true, if_false, hb2, if_true]
      refine ⟨⟨hd, rfl, hr, le_refl _⟩, ?_, fun _ => trivial, ?_⟩
      · intro h3
        exact absurd h3 h1
      · intro _ h4
        exact absurd h2 (not_lt.mpr h4)
    · have hb2 : dyLtB hd pd = false :=
        Bool.eq_false_iff.mpr (fun hb => absurd ((dyLtB_iff hd pd).mp hb) h2)
      simp only [hb1, hb2, Bool.false_eq_true, if_false]
      refine ⟨⟨pd, rfl, not_lt.mp h1, not_lt.mp h2⟩, ?_, ?_, fun _ _ => trivial⟩
      · intro h3
        exact absurd h3 h1
      · intro h3
        exact absurd h3 h2

theorem c7_bounds_clamp_xz_only (b : Body) (g dt : JsNum) (bi : Body) (bd : BoundsM)
    (px lx hx pz lz hz : Dy)
    (hstat : b.isStatic = false)
    (hbi : groundCollide (integrate g dt b) = bi)
    (hb : bi.bounds = some bd)
    (hpx : bi.pos.x = .fin px) (hlx : bd.minX = .fin lx) (hhx : bd.maxX = .fin hx)
    (hpz : bi.pos.z = .fin pz) (hlz : bd.minZ = .fin lz) (hhz : bd.maxZ = .fin hz)
    (hxr : dyVal lx ≤ dyVal hx) (hzr : dyVal lz ≤ dyVal hz) :
    ((stepBody g dt b).pos.y = bi.pos.y ∧ (stepBody g dt b).velocity.y = bi.velocity.y)
    ∧ (∃ qx : Dy, (stepBody g dt b).pos.x = .fin qx
        ∧ dyVal lx ≤ dyVal qx ∧ dyVal qx ≤ dyVal hx)
    ∧ (∃ qz : Dy, (stepBody g dt b).pos.z = .fin qz
        ∧ dyVal lz ≤ dyVal qz ∧ dyVal qz ≤ dyVal hz)
    ∧ (dyVal px < dyVal lx →
        (stepBody g dt b).pos.x = .fin lx
          ∧ (stepBody g dt b).velocity.x = mulD bi.velocity.x (negD bi.restitution))
    ∧ (dyVal hx < dyVal px →
        (stepBody g dt b).pos.x = .fin hx
          ∧ (stepBody g dt b).velocity.x = mulD bi.velocity.x (negD bi.restitution))
    ∧ (dyVal pz < dyVal lz →
        (stepBody g dt b).pos.z = .fin lz
          ∧ (stepBody g dt b).velocity.z = mulD bi.velocity.z (negD bi.restitution))
    ∧ (dyVal hz < dyVal pz →
        (stepBody g dt b).pos.z = .fin hz
          ∧ (stepBody g dt b).velocity.z = mulD bi.velocity.z (negD bi.restitution)) := by
  have hsb : stepBody g dt b = resetAccel (boundsCollide bi) := by
    unfold stepBody
    simp only [hstat, Bool.false_eq_true, if_false, hbi]
  have hbc : boundsCollide bi
      = { bi with
          pos := ⟨(clampAxis (.fin px) bi.velocity.x (.fin lx) (.fin hx) bi.restitution).1,
                  bi.pos.y,
                  (clampAxis (.fin pz) bi.velocity.z (.fin lz) (.fin hz) bi.restitution).1⟩,
          velocity := ⟨(clampAxis (.fin px) bi.velocity.x (.fin lx) (.fin hx) bi.restitution).2,
                       bi.velocity.y,
                       (clampAxis (.fin pz) bi.velocity.z (.fin lz) (.fin hz) bi.restitution).2⟩ } := by
    unfold boundsCollide
    simp only [hb]
    rw [hpx, hlx, hhx, hpz, hlz, hhz]
  have hx1 := clampAxis_spec bi.velocity.x bi.restitution px lx hx hxr
  have hz1 := clampAxis_spec bi.velocity.z bi.restitution pz lz hz hzr
  rw [hsb, hbc]
  simp only [resetAccel]
  obtain ⟨⟨qx, hqx, hqx1, hqx2⟩, hxlo, hxhi, -⟩ := hx1
  obtain ⟨⟨qz, hqz, hqz1, hqz2⟩, hzlo, hzhi, -⟩ := hz1
  refine ⟨⟨by trivial, by trivial⟩, ⟨qx, hqx, hqx1, hqx2⟩, ⟨qz, hqz, hqz1, hqz2⟩, ?_, ?_, ?_, ?_⟩
  · intro h
    rw [hxlo h]
    exact ⟨by trivial, by trivial⟩
  · intro h
    rw [hxhi h]
    exact ⟨by trivial, by trivial⟩
  · intro h
    rw [hzlo h]
    exact ⟨by trivial, by trivial⟩
  · intro h
    rw [hzhi h]
    exact ⟨by trivial, by trivial⟩

theorem c7_y_bounds_not_clamped :
    (stepBody (negD (lit 98 10)) (lit 1 1) c7Body).pos.y = lit 10 1
    ∧ (c7Body.bounds.map BoundsM.maxY) = some (lit 5 1)
    ∧ gtD (stepBody (negD (lit 98 10)) (lit 1 1) c7Body).pos.y (lit 5 1) = true
    ∧ (stepBody (negD (lit 98 10)) (lit 1 1) c7Body).velocity.y = lit 8 1 := by
  decide

theorem c7_bounds_clamp_xz_only_witness :
    ((stepBody (negD (lit 98 10)) (lit 1 1) c7WitBody).pos.y = c7WitMid.pos.y
      ∧ (stepBody (negD (lit 98 10)) (lit 1 1) c7WitBody).velocity.y = c7WitMid.velocity.y)
    ∧ (∃ qx : Dy, (stepBody (negD (lit 98 10)) (lit 1 1) c7WitBody).pos.x = .fin qx
        ∧ dyVal ⟨-7, 0⟩ ≤ dyVal qx ∧ dyVal qx ≤ dyVal ⟨7, 0⟩)
    ∧ (∃ qz : Dy, (stepBody (negD (lit 98 10)) (lit 1 1) c7WitBody).pos.z = .fin qz
        ∧ dyVal ⟨-7, 0⟩ ≤ dyVal qz ∧ dyVal qz ≤ dyVal ⟨7, 0⟩)
    ∧ (dyVal (⟨1, 0⟩ : Dy) < dyVal ⟨-7, 0⟩ →
        (stepBody (negD (lit 98 10)) (lit 1 1) c7WitBody).pos.x = .fin ⟨-7, 0⟩
          ∧ (stepBody (negD (lit 98 10)) (lit 1 1) c7WitBody).velocity.x
              = mulD c7WitMid.velocity.x (negD c7WitMid.restitution))
    ∧ (dyVal (⟨7, 0⟩ : Dy) < dyVal ⟨1, 0⟩ →
        (stepBody (negD (lit 98 10)) (lit 1 1) c7WitBody).pos.x = .fin ⟨7, 0⟩
          ∧ (stepBody (negD (lit 98 10)) (lit 1 1) c7WitBody).velocity.x
              = mulD c7WitMid.velocity.x (negD c7WitMid.restitution))
    ∧ (dyVal (⟨0, 0⟩ : Dy) < dyVal ⟨-7, 0⟩ →
        (stepBody (negD (lit 98 10)) (lit 1 1) c7WitBody).pos.z = .fin ⟨-7, 0⟩
          ∧ (stepBody (negD (lit 98 10)) (lit 1 1) c7WitBody).velocity.z
              = mulD c7WitMid.velocity.z (negD c7WitMid.restitution))
    ∧ (dyVal (⟨7, 0⟩ : Dy) < dyVal ⟨0, 0⟩ →
        (stepBody (negD (lit 98 10)) (lit 1 1) c7WitBody).pos.z = .fin ⟨7, 0⟩
          ∧ (stepBody (negD (lit 98 10)) (lit 1 1) c7WitBody).velocity.z
              = mulD c7WitMid.velocity.z (negD c7WitMid.restitution)) :=
  c7_bounds_clamp_xz_only c7WitBody (negD (lit 98 10)) (lit 1 1) c7WitMid c7WitBounds
    ⟨1, 0⟩ ⟨-7, 0⟩ ⟨7, 0⟩ ⟨0, 0⟩ ⟨-7, 0⟩ ⟨7, 0⟩
    (by decide) (by decide) (by decide)
    (by decide) (by decide) (by decide)
    (by decide) (by decide) (by decide)
    (by norm_num [dyVal]) (by norm_num [dyVal])
